import Mathlib

/-!
Verification of the X402-audio-to-audio repository: the OOK audio modem
(`fsk_modem.py`) and the compact payment codec (`payment.py`,
`compact_x402.py`).

Embedding conventions:
* Python `bytes` values are `List Nat`, each element a byte value.
* Machine arithmetic is `Nat` with explicit masks / `% 2^w` where the source
  masks; `struct.pack` fields are emitted as big-endian base-256 digits.
* Fallible Python code (exceptions from `struct`, `bytes()`, `bytes.fromhex`)
  is `Option`.
* The modulator's waveform is modelled at symbol granularity: one list entry
  per 480-sample bit period, `1` for a 2400 Hz tone burst and `0` for
  silence.  The individual floating-point sine samples carry no information
  that any property below depends on.
* The demodulator's floating-point front end (Butterworth band-pass,
  Goertzel powers, percentile threshold) is abstracted as an arbitrary
  bit-decision oracle `db : Nat → Option Bool`, exactly the interface of the
  source's `decode_bit` (a `0`/`1` decision at a sample offset, `None` past
  the end of the capture).  The frame-recovery logic after synchronization is
  translated literally against that oracle.
-/

namespace X402

/-! ## Modem constants (`fsk_modem.py` lines 24-31) -/

def SAMPLE_RATE : Nat := 48000

/-- `SAMPLES_PER_BIT = int(SAMPLE_RATE * BIT_DURATION) = int(48000 * 0.010)`. -/
def SAMPLES_PER_BIT : Nat := 480

def REPETITIONS : Nat := 2

/-- `BIT_DURATION = 0.010` seconds, modelled as the exact rational. -/
def BIT_DURATION : ℚ := 1 / 100

/-! ## Bit utilities (`fsk_modem.py` lines 34-68) -/

/-- One round of the inner loop of `crc16`: shift left, conditionally XOR
with the polynomial 0x1021, truncate to 16 bits. -/
def crc16step (crc : Nat) : Nat :=
  if crc &&& 0x8000 ≠ 0 then ((crc <<< 1) ^^^ 0x1021) &&& 0xFFFF
  else (crc <<< 1) &&& 0xFFFF

/-- `n` iterations of `crc16step`. -/
def crc16rounds : Nat → Nat → Nat
  | 0, crc => crc
  | n + 1, crc => crc16rounds n (crc16step crc)

/-- CRC-16-CCITT of `fsk_modem.crc16`: register initialised to 0xFFFF; per
byte, XOR into the high byte then run 8 shift rounds. -/
def crc16 (data : List Nat) : Nat :=
  data.foldl (fun crc b => crc16rounds 8 (crc ^^^ (b <<< 8))) 0xFFFF

/-- The 8 bits of one byte, MSB first (`bytes_to_bits` inner loop). -/
def byteBits (b : Nat) : List Nat :=
  (List.range 8).map (fun i => (b >>> (7 - i)) &&& 1)

/-- `fsk_modem.bytes_to_bits`: MSB-first bit list of a byte string. -/
def bytes_to_bits (data : List Nat) : List Nat :=
  (data.map byteBits).flatten

/-! ## Modulator (`fsk_modem.encode_fsk`, lines 112-168) -/

/-- Repetition coding: each bit occupies `REPETITIONS` consecutive symbol
slots (the `for _ in range(REPETITIONS)` loops of `encode_fsk`). -/
def repeatBits (bits : List Nat) : List Nat :=
  (bits.map (fun b => List.replicate REPETITIONS b)).flatten

/-- `encode_fsk`, at symbol granularity.  A symbol value `1` stands for one
480-sample tone burst, `0` for one 480-sample silence; the 0.2 s leading and
trailing silences are exactly 9600 samples = 20 symbol slots.  The source
fails (a `ValueError` raised by `bytes([len(data)])`, before any audio is
generated) exactly when the payload length exceeds 255. -/
def encode_fsk (data : List Nat) : Option (List Nat) :=
  if data.length ≤ 255 then
    let crc := crc16 data
    let crc_bytes := [crc >>> 8, crc &&& 0xFF]
    let header_bits := bytes_to_bits (List.replicate 4 0xAA ++ [0x55])
    let length_bits := bytes_to_bits [data.length]
    let payload_bits := bytes_to_bits (data ++ crc_bytes)
    some (List.replicate 20 0 ++ header_bits ++ repeatBits length_bits ++
      repeatBits payload_bits ++ List.replicate 20 0)
  else none

/-! ## Demodulator frame recovery (`fsk_modem.decode_fsk`, lines 215-320)

The front end (band-pass filter, per-window Goertzel power, adaptive
percentile threshold) is floating-point and is abstracted as an oracle
`db : Nat → Option Bool`: the tone/no-tone decision for the symbol window
starting at sample offset `pos`, or `none` when the window overruns the
capture.  This is exactly the interface of the source's `decode_bit`; the
frame-recovery logic below it is translated literally. -/

/-- `decode_bit`: the source returns `1 if power > adaptive_threshold else
0`, or `None` past the end of the audio; the floating-point comparison is
the oracle's `Bool`. -/
def decode_bit (db : Nat → Option Bool) (start : Nat) : Option Nat :=
  (db start).map (fun b => if b then 1 else 0)

/-- The `votes` list collected by `decode_bit_with_repetition`: `n`
consecutive symbol decisions starting at `start`, one symbol period apart. -/
def decode_votes (db : Nat → Option Bool) : Nat → Nat → Option (List Nat)
  | _, 0 => some []
  | start, n + 1 =>
    match decode_bit db start with
    | none => none
    | some b => (decode_votes db (start + SAMPLES_PER_BIT) n).map (b :: ·)

/-- `decode_bit_with_repetition`: majority vote over `REPETITIONS`
consecutive symbols (`1 if sum(votes) > REPETITIONS // 2 else 0`, so ties
break to 0); on success the cursor advances by `REPETITIONS` periods. -/
def decode_bit_with_repetition (db : Nat → Option Bool) (start : Nat) :
    Option (Nat × Nat) :=
  match decode_votes db start REPETITIONS with
  | none => none
  | some votes =>
    some (if votes.sum > REPETITIONS / 2 then 1 else 0,
      start + REPETITIONS * SAMPLES_PER_BIT)

/-- The 8-iteration bit loop of `decode_byte_with_repetition`, returning the
collected bits and the final cursor. -/
def decode_rep_bits (db : Nat → Option Bool) : Nat → Nat → Option (List Nat × Nat)
  | start, 0 => some ([], start)
  | start, n + 1 =>
    match decode_bit_with_repetition db start with
    | none => none
    | some (b, pos) =>
      match decode_rep_bits db pos n with
      | none => none
      | some (bs, pos2) => some (b :: bs, pos2)

/-- `value = sum(bits[i] << (7-i))` for an MSB-first bit list. -/
def bitsValue (bits : List Nat) : Nat :=
  bits.foldl (fun acc b => 2 * acc + b) 0

/-- `decode_byte_with_repetition`: 8 majority-voted bits assembled MSB
first. -/
def decode_byte_with_repetition (db : Nat → Option Bool) (start : Nat) :
    Option (Nat × Nat) :=
  match decode_rep_bits db start 8 with
  | none => none
  | some (bits, pos) => some (bitsValue bits, pos)

/-- The `for _ in range(payload_length + 2)` loop of `decode_fsk`: read `n`
bytes with repetition, in capture order. -/
def decode_rep_bytes (db : Nat → Option Bool) : Nat → Nat → Option (List Nat × Nat)
  | start, 0 => some ([], start)
  | start, n + 1 =>
    match decode_byte_with_repetition db start with
    | none => none
    | some (b, pos) =>
      match decode_rep_bytes db pos n with
      | none => none
      | some (bs, pos2) => some (b :: bs, pos2)

/-- Lines 299-313 of `decode_fsk` (after sync, before the CRC comparison):
length byte with repetition and its `> 255` guard, then `length + 2` bytes
with repetition, split into the payload and the big-endian trailer CRC. -/
def recovered_frame (db : Nat → Option Bool) (decode_start : Nat) :
    Option (List Nat × Nat) :=
  match decode_byte_with_repetition db decode_start with
  | none => none
  | some (payload_length, pos) =>
    if payload_length > 255 then none
    else
      match decode_rep_bytes db pos (payload_length + 2) with
      | none => none
      | some (payload_bytes, _) =>
        some (payload_bytes.take payload_length,
          (payload_bytes.getD payload_length 0 <<< 8) |||
            payload_bytes.getD (payload_length + 1) 0)

/-- `recovered_frame` with the `payload_length > 255` fatal branch removed,
used to state that the branch is unreachable. -/
def recovered_frame_unguarded (db : Nat → Option Bool) (decode_start : Nat) :
    Option (List Nat × Nat) :=
  match decode_byte_with_repetition db decode_start with
  | none => none
  | some (payload_length, pos) =>
    match decode_rep_bytes db pos (payload_length + 2) with
    | none => none
    | some (payload_bytes, _) =>
      some (payload_bytes.take payload_length,
        (payload_bytes.getD payload_length 0 <<< 8) |||
          payload_bytes.getD (payload_length + 1) 0)

/-- Lines 299-320 of `decode_fsk`: frame recovery after synchronization
including the final `received_crc != calculated_crc` rejection. -/
def decode_fsk_tail (db : Nat → Option Bool) (decode_start : Nat) :
    Option (List Nat) :=
  match recovered_frame db decode_start with
  | none => none
  | some (payload, received_crc) =>
    if received_crc ≠ crc16 payload then none else some payload

/-- Bit-decision oracle induced by a concrete symbol list: the decision for
the window at sample offset `pos` is symbol number `pos / SAMPLES_PER_BIT`,
`none` past the end of the list. -/
def symOracle (syms : List Nat) (pos : Nat) : Option Bool :=
  (syms[pos / SAMPLES_PER_BIT]?).map (fun b => b == 1)

/-- Symbol stream of `encode_fsk [0x41]` with the leading silence, preamble
and sync dropped (20 + 40 symbols): the portion `decode_fsk_tail` consumes. -/
def demoSyms : List Nat :=
  ((encode_fsk [0x41]).getD []).drop 60

/-- The same capture with both CRC trailer bytes replaced by silence (the
spec's scenario S6). -/
def demoSymsBad : List Nat :=
  demoSyms.take 32 ++ List.replicate 32 0

/-! ## Duration formula (`fsk_modem.get_duration`, lines 323-329) -/

/-- `get_duration`: audio duration in seconds for a payload of
`data_length` bytes.  The float constants `0.010` and `0.4` are modelled as
exact rationals; the claimed identity compares two arrangements of the same
integer bit count multiplied by the same constants, so this is faithful. -/
def get_duration (data_length : Nat) : ℚ :=
  let header_bits := (4 + 1) * 8
  let length_bits := 8 * REPETITIONS
  let payload_bits := (data_length + 2) * 8 * REPETITIONS
  let total_bits := header_bits + length_bits + payload_bits
  (total_bits : ℚ) * BIT_DURATION + 4 / 10

/-! ## Compact payment codec (`payment.py`, `compact_x402.py`)

`struct.pack` fields are emitted as big-endian base-256 digit lists in the
format's field order; `struct.unpack` reads the fixed-size prefix back.
Exceptions raised by `struct` and by `bytes.fromhex` are `none`. -/

/-- Big-endian digits of a `uint32` (`struct` format `I`); every call site
bounds the argument by `0xFFFFFFFF` first. -/
def u32be (n : Nat) : List Nat :=
  [n / 2 ^ 24 % 256, n / 2 ^ 16 % 256, n / 2 ^ 8 % 256, n % 256]

/-- Big-endian digits of a `uint16` (`struct` format `H`). -/
def u16be (n : Nat) : List Nat :=
  [n / 256 % 256, n % 256]

/-- Big-endian value of a byte list (how `struct.unpack` reads `I` / `H`). -/
def beNat (bs : List Nat) : Nat :=
  bs.foldl (fun a b => a * 256 + b) 0

/-- `struct` format `ks`: pad with zero bytes, or truncate, to exactly `k`
bytes. -/
def padTrunc (k : Nat) (bs : List Nat) : List Nat :=
  bs.take k ++ List.replicate (k - bs.length) 0

/-- Value of one hexadecimal digit, upper or lower case (`bytes.fromhex`). -/
def hexVal (c : Char) : Option Nat :=
  if '0' ≤ c ∧ c ≤ '9' then some (c.toNat - '0'.toNat)
  else if 'a' ≤ c ∧ c ≤ 'f' then some (c.toNat - 'a'.toNat + 10)
  else if 'A' ≤ c ∧ c ≤ 'F' then some (c.toNat - 'A'.toNat + 10)
  else none

/-- `bytes.fromhex`: two hex digits per byte; an odd count or a non-hex
character raises (`none`).  (Python additionally skips ASCII whitespace
between byte pairs; no string in this development contains any, so that
tolerance is not modelled.) -/
def fromhex : List Char → Option (List Nat)
  | [] => some []
  | c1 :: c2 :: rest =>
    match hexVal c1, hexVal c2, fromhex rest with
    | some h, some l, some bs => some ((16 * h + l) :: bs)
    | _, _, _ => none
  | [_] => none

/-- Lower-case hex digit of a value below 16 (`bytes.hex`). -/
def hexDigit (n : Nat) : Char :=
  if n < 10 then Char.ofNat ('0'.toNat + n) else Char.ofNat ('a'.toNat + n - 10)

/-- `bytes.hex()`: lower-case hex rendering of a byte list (entries are
below 256 at every call site). -/
def bytesHex (bs : List Nat) : List Char :=
  (bs.map (fun b => [hexDigit (b / 16 % 16), hexDigit (b % 16)])).flatten

/-- `s[2:] if s.startswith("0x") else s`, on the character list. -/
def strip0x (cs : List Char) : List Char :=
  if cs.take 2 = ['0', 'x'] then cs.drop 2 else cs

/-- `NETWORK_IDS.get(network, 0)` over the table `{"base-sepolia": 0,
"base": 1, "ethereum": 2, "ethereum-sepolia": 3}` (`payment.py` line 24; the
`NETWORKS` table of `compact_x402.py` is identical). -/
def network_id_of (network : String) : Nat :=
  if network = "base-sepolia" then 0
  else if network = "base" then 1
  else if network = "ethereum" then 2
  else if network = "ethereum-sepolia" then 3
  else 0

/-- `NETWORK_IDS_REVERSE.get(network_id, "base-sepolia")`. -/
def network_of_id (network_id : Nat) : String :=
  if network_id = 0 then "base-sepolia"
  else if network_id = 1 then "base"
  else if network_id = 2 then "ethereum"
  else if network_id = 3 then "ethereum-sepolia"
  else "base-sepolia"

/-- `USDC_ADDRESSES.get(network, USDC_ADDRESSES["base-sepolia"])`
(`compact_x402.py` lines 29-32 and 93). -/
def usdc_address_of (network : String) : String :=
  if network = "base-sepolia" then "0x036CbD53842c5426634e7929541eC2318f3dCF7e"
  else if network = "base" then "0x833589fCD6eDb6E08f4c7C32D4f71b54bdA02913"
  else "0x036CbD53842c5426634e7929541eC2318f3dCF7e"

/-- `payment.PaymentRequest`: the 30-byte request record. -/
structure PaymentRequest where
  pay_to : String
  price : Nat
  timeout : Nat
  network : String := "base-sepolia"
  nonce : Nat := 0
deriving DecidableEq

/-- `PaymentRequest.to_bytes`: `struct.pack(">B B B I 20s H B", 1,
network_id, 0, min(price, 0xFFFFFFFF), pay_to_bytes, min(timeout, 65535),
nonce % 256)`; `none` exactly when `bytes.fromhex` rejects the address
string. -/
def PaymentRequest.to_bytes (r : PaymentRequest) : Option (List Nat) :=
  match fromhex (strip0x r.pay_to.data) with
  | none => none
  | some pay_to_bytes =>
    some ([1, network_id_of r.network, 0] ++ (u32be (min r.price 0xFFFFFFFF) ++
      (padTrunc 20 pay_to_bytes ++ (u16be (min r.timeout 65535) ++ [r.nonce % 256]))))

/-- `PaymentRequest.from_bytes`: `struct.unpack(">B B B I 20s H B",
data[:30])`, which raises when fewer than 30 bytes are available; the
version and scheme bytes are read and dropped, and the address is rendered
back as `"0x" + pay_to_bytes.hex()`. -/
def PaymentRequest.from_bytes (data : List Nat) : Option PaymentRequest :=
  if 30 ≤ data.length then
    some { pay_to :=
             String.mk ('0' :: 'x' :: bytesHex (((data.take 30).drop 7).take 20)),
           price := beNat (((data.take 30).drop 3).take 4),
           timeout := beNat (((data.take 30).drop 27).take 2),
           network := network_of_id ((data.take 30).getD 1 0),
           nonce := (data.take 30).getD 29 0 }
  else none

/-- `payment.PaymentResponse`: the 108-byte signed-authorization record. -/
structure PaymentResponse where
  v : Nat
  r : List Nat
  s : List Nat
  nonce : List Nat
  valid_after : Nat
  valid_before : Nat
  network : String := "base-sepolia"
deriving DecidableEq

/-- `PaymentResponse.to_bytes`: `struct.pack(">B B B B 32s 32s 32s I I", 1,
network_id, 0, v, r, s, nonce, valid_after, valid_before)`; `struct` raises
on a `v` above one byte (`B`) or a timestamp at or above `2^32` (`I`). -/
def PaymentResponse.to_bytes (p : PaymentResponse) : Option (List Nat) :=
  if p.v ≤ 255 ∧ p.valid_after ≤ 0xFFFFFFFF ∧ p.valid_before ≤ 0xFFFFFFFF then
    some ([1, network_id_of p.network, 0, p.v] ++ (padTrunc 32 p.r ++
      (padTrunc 32 p.s ++ (padTrunc 32 p.nonce ++ (u32be p.valid_after ++
        u32be p.valid_before)))))
  else none

/-- `PaymentResponse.from_bytes`: `struct.unpack(">B B B B 32s 32s 32s I I",
data[:108])`; the version and scheme bytes are read and dropped. -/
def PaymentResponse.from_bytes (data : List Nat) : Option PaymentResponse :=
  if 108 ≤ data.length then
    some { v := (data.take 108).getD 3 0,
           r := ((data.take 108).drop 4).take 32,
           s := ((data.take 108).drop 36).take 32,
           nonce := ((data.take 108).drop 68).take 32,
           valid_after := beNat (((data.take 108).drop 100).take 4),
           valid_before := beNat (((data.take 108).drop 104).take 4),
           network := network_of_id ((data.take 108).getD 1 0) }
  else none

/-- `compact_x402.CompactPaymentRequest` (decoded view; the non-wire
`resource` / `description` metadata defaults to the empty string). -/
structure CompactPaymentRequest where
  version : Nat
  network : String
  scheme : String
  price : Nat
  pay_to : String
  asset : String
  timeout : Nat
  nonce : Nat
  resource : String := ""
  description : String := ""
deriving DecidableEq

/-- `CompactPaymentRequest.from_bytes`: `struct.unpack(">B B B I 20s H B",
data[:30])`; an unknown network ID falls back to `"base-sepolia"`, a nonzero
scheme ID decodes as `"unknown"`, and the asset is derived from the decoded
network. -/
def CompactPaymentRequest.from_bytes (data : List Nat) :
    Option CompactPaymentRequest :=
  if 30 ≤ data.length then
    some { version := (data.take 30).getD 0 0,
           network := network_of_id ((data.take 30).getD 1 0),
           scheme := if (data.take 30).getD 2 0 = 0 then "exact" else "unknown",
           price := beNat (((data.take 30).drop 3).take 4),
           pay_to :=
             String.mk ('0' :: 'x' :: bytesHex (((data.take 30).drop 7).take 20)),
           asset := usdc_address_of (network_of_id ((data.take 30).getD 1 0)),
           timeout := beNat (((data.take 30).drop 27).take 2),
           nonce := (data.take 30).getD 29 0 }
  else none

/-- The request instance of the spec's end-to-end scenario S1. -/
def s1req : PaymentRequest :=
  { pay_to := "0x5b12EA8DC4f37F4998d5A1BCf63Ac9d6fd89bd4e",
    price := 1000, timeout := 60, network := "base-sepolia", nonce := 1 }

/-- The response instance of the spec's end-to-end scenario S2. -/
def s2resp : PaymentResponse :=
  { v := 0x1b, r := List.replicate 32 0xAB, s := List.replicate 32 0xCD,
    nonce := List.replicate 32 0xEF,
    valid_after := 1700000000, valid_before := 1700000060,
    network := "base-sepolia" }

/-- The 20 address bytes of the S1 recipient. -/
def s1addrBytes : List Nat :=
  [0x5b, 0x12, 0xEA, 0x8D, 0xC4, 0xf3, 0x7F, 0x49, 0x98, 0xd5,
   0xA1, 0xBC, 0xf6, 0x3A, 0xc9, 0xd6, 0xfd, 0x89, 0xbd, 0x4e]

/-- The S1 request with an oversized nonce counter, exercising the `% 256`
reduction on encode. -/
def s1reqBigNonce : PaymentRequest :=
  { pay_to := "0x5b12EA8DC4f37F4998d5A1BCf63Ac9d6fd89bd4e",
    price := 1000, timeout := 60, network := "base-sepolia", nonce := 300 }

/-- The record decoded from 31 bytes of value 7: unknown network ID 7 falls
back to the default network, nonzero scheme ID 7 decodes as `"unknown"`,
and the 31st byte is ignored. -/
def creq7 : CompactPaymentRequest :=
  { version := 7, network := "base-sepolia", scheme := "unknown",
    price := 117901063,
    pay_to := "0x0707070707070707070707070707070707070707",
    asset := "0x036CbD53842c5426634e7929541eC2318f3dCF7e",
    timeout := 1799, nonce := 7 }

/-! ## Helper lemmas -/

set_option maxRecDepth 4000 in
/-- The CRC-16/CCITT-FALSE reference vector (`crc16("123456789") = 0x29B1`),
a sanity check that the register embedding matches the source. -/
theorem crc16_reference_vector :
    crc16 [49, 50, 51, 52, 53, 54, 55, 56, 57] = 0x29B1 ∧ crc16 [] = 0xFFFF := by
  constructor <;> decide

/-- A majority-voted bit is 0 or 1. -/
theorem decode_bit_with_repetition_le_one (db : Nat → Option Bool) (start b pos : Nat)
    (h : decode_bit_with_repetition db start = some (b, pos)) : b ≤ 1 := by
  unfold decode_bit_with_repetition at h
  rcases hv : decode_votes db start REPETITIONS with _ | votes <;> rw [hv] at h
  · exact absurd h (by simp)
  · simp only [Option.some.injEq, Prod.mk.injEq] at h
    rcases h with ⟨h, -⟩
    split at h <;> omega

/-- The bit loop returns exactly `n` bits, each 0 or 1. -/
theorem decode_rep_bits_spec (db : Nat → Option Bool) :
    ∀ n start bs pos, decode_rep_bits db start n = some (bs, pos) →
      bs.length = n ∧ ∀ b ∈ bs, b ≤ 1 := by
  intro n
  induction n with
  | zero =>
    intro start bs pos h
    simp only [decode_rep_bits, Option.some.injEq, Prod.mk.injEq] at h
    rcases h with ⟨h, -⟩
    simp [← h]
  | succ n ih =>
    intro start bs pos h
    unfold decode_rep_bits at h
    split at h
    · exact Option.noConfusion h
    next b p heq1 =>
      split at h
      · exact Option.noConfusion h
      next bs' p2 heq2 =>
        simp only [Option.some.injEq, Prod.mk.injEq] at h
        rcases h with ⟨h, -⟩
        rcases ih p bs' p2 heq2 with ⟨hlen, hle⟩
        subst h
        refine ⟨by simp [hlen], ?_⟩
        intro x hx
        rcases List.mem_cons.mp hx with hx | hx
        · exact hx ▸ decode_bit_with_repetition_le_one db start b p heq1
        · exact hle x hx

/-- MSB-first assembly of bits that are each at most 1 stays below
`(acc + 1) * 2 ^ length`. -/
theorem bitsValue_aux :
    ∀ (bs : List Nat) (acc : Nat), (∀ b ∈ bs, b ≤ 1) →
      bs.foldl (fun a b => 2 * a + b) acc < (acc + 1) * 2 ^ bs.length := by
  intro bs
  induction bs with
  | nil => intro acc _; simp
  | cons b bs ih =>
    intro acc h
    have hb : b ≤ 1 := h b (by simp)
    have htail : ∀ x ∈ bs, x ≤ 1 := fun x hx => h x (by simp [hx])
    have := ih (2 * acc + b) htail
    calc (b :: bs).foldl (fun a b => 2 * a + b) acc
        = bs.foldl (fun a b => 2 * a + b) (2 * acc + b) := by simp [List.foldl]
      _ < (2 * acc + b + 1) * 2 ^ bs.length := this
      _ ≤ ((acc + 1) * 2) * 2 ^ bs.length := by
          apply Nat.mul_le_mul_right; omega
      _ = (acc + 1) * 2 ^ (b :: bs).length := by
          simp [List.length_cons, Nat.pow_succ]; ring

/-! ## Claim theorems -/

/-- C10: every byte decoded with repetition is at most 255 (it is assembled
from exactly 8 majority-voted bits), so the demodulator's fatal
`payload_length > 255` branch is unreachable: `recovered_frame` equals the
variant with that branch removed, for every oracle and start offset. -/
theorem decoded_byte_in_range (db : Nat → Option Bool) (start : Nat) :
    (∀ v pos, decode_byte_with_repetition db start = some (v, pos) → v ≤ 255) ∧
    recovered_frame db start = recovered_frame_unguarded db start := by
  have hb : ∀ v pos, decode_byte_with_repetition db start = some (v, pos) → v ≤ 255 := by
    intro v pos h
    unfold decode_byte_with_repetition at h
    rcases h1 : decode_rep_bits db start 8 with _ | ⟨bits, p⟩ <;> rw [h1] at h
    · exact absurd h (by simp)
    · simp only [Option.some.injEq, Prod.mk.injEq] at h
      rcases h with ⟨h, -⟩
      rcases decode_rep_bits_spec db 8 start bits p h1 with ⟨hlen, hle⟩
      have := bitsValue_aux bits 0 hle
      rw [hlen] at this
      subst h
      unfold bitsValue
      omega
  refine ⟨hb, ?_⟩
  unfold recovered_frame recovered_frame_unguarded
  rcases h1 : decode_byte_with_repetition db start with _ | ⟨v, pos⟩
  · rfl
  · have : ¬ v > 255 := by have := hb v pos h1; omega
    simp [this]

set_option maxRecDepth 8000 in
/-- Witness for C10 at a concrete capture: the length byte of the encoded
frame for payload `[0x41]` decodes to 1, which the theorem bounds by 255. -/
theorem decoded_byte_in_range_witness :
    decode_byte_with_repetition (symOracle demoSyms) 0 = some (1, 7680) ∧ (1 : Nat) ≤ 255 :=
  ⟨by decide, (decoded_byte_in_range (symOracle demoSyms) 0).1 1 7680 (by decide)⟩

/-- C4: the demodulator is all-or-nothing with respect to the CRC.  For
every bit-decision oracle (hence for the one the floating-point front end
computes on any input audio) and every start offset, `decode_fsk_tail`
either fails or returns exactly the recovered payload, whose recomputed
CRC-16 equals the CRC recovered from the trailer; whenever the two CRCs
differ the result is failure. -/
theorem decode_fsk_crc_all_or_nothing (db : Nat → Option Bool) (s : Nat) :
    (∀ p, decode_fsk_tail db s = some p → recovered_frame db s = some (p, crc16 p)) ∧
    (∀ p c, recovered_frame db s = some (p, c) → c ≠ crc16 p →
      decode_fsk_tail db s = none) := by
  constructor
  · intro p hp
    unfold decode_fsk_tail at hp
    split at hp
    · exact Option.noConfusion hp
    next q c heq =>
      split at hp
      · exact Option.noConfusion hp
      next hc =>
        push_neg at hc
        simp only [Option.some.injEq] at hp
        rw [heq, hp, hc, hp]
  · intro p c h1 hc
    unfold decode_fsk_tail
    rw [h1]
    exact if_pos hc

set_option maxRecDepth 20000 in
/-- Witness for C4: on the clean capture of payload `[0x41]` the recovered
frame carries the matching CRC; on the same capture with the CRC trailer
silenced (received CRC 0) the demodulator fails. -/
theorem decode_fsk_crc_all_or_nothing_witness :
    recovered_frame (symOracle demoSyms) 0 = some ([0x41], crc16 [0x41]) ∧
    decode_fsk_tail (symOracle demoSymsBad) 0 = none :=
  ⟨(decode_fsk_crc_all_or_nothing (symOracle demoSyms) 0).1 [0x41] (by decide),
   (decode_fsk_crc_all_or_nothing (symOracle demoSymsBad) 0).2 [0x41] 0
     (by decide) (by decide)⟩

/-- C6: the modulator is total for payloads of length at most 255 and fails
— before any audio is generated — for longer payloads (the length byte
`bytes([len(data)])` is unrepresentable). -/
theorem encode_fsk_total_iff_small (data : List Nat) :
    (data.length ≤ 255 → (encode_fsk data).isSome) ∧
    (255 < data.length → encode_fsk data = none) := by
  constructor <;> intro h
  · unfold encode_fsk
    rw [if_pos h]
    rfl
  · unfold encode_fsk
    rw [if_neg (by omega)]

/-- Witness for C6: a 1-byte payload encodes; a 256-byte payload fails. -/
theorem encode_fsk_total_iff_small_witness :
    (encode_fsk [0x41]).isSome ∧ encode_fsk (List.replicate 256 0) = none :=
  ⟨(encode_fsk_total_iff_small [0x41]).1 (by decide),
   (encode_fsk_total_iff_small (List.replicate 256 0)).2
     (by simp only [List.length_replicate]; omega)⟩

/-- C7: `get_duration N` equals the closed form
`(40 + (N + 3) * 16) * 0.010 + 0.4` seconds. -/
theorem get_duration_closed_form (N : Nat) :
    get_duration N = ((40 + (N + 3) * 16 : Nat) : ℚ) * (1 / 100) + 4 / 10 := by
  unfold get_duration BIT_DURATION REPETITIONS
  push_cast
  ring

/-! ## Codec helper lemmas -/

theorem padTrunc_length (k : Nat) (bs : List Nat) : (padTrunc k bs).length = k := by
  simp [padTrunc]
  omega

theorem beNat_u32be (n : Nat) (h : n ≤ 0xFFFFFFFF) : beNat (u32be n) = n := by
  simp [beNat, u32be, List.foldl]
  omega

theorem beNat_u16be (n : Nat) (h : n ≤ 65535) : beNat (u16be n) = n := by
  simp [beNat, u16be, List.foldl]
  omega

theorem getD_take_of_lt (l : List Nat) (n m d : Nat) (h : m < n) :
    (l.take n).getD m d = l.getD m d := by
  simp [List.getD_eq_getElem?_getD, List.getElem?_take_of_lt h]

/-- Unpacking the exact 30-byte request layout recovers each field. -/
theorem request_unpack (nid pm tm nn : Nat) (A : List Nat)
    (hA : A.length = 20) (hpm : pm ≤ 0xFFFFFFFF) (htm : tm ≤ 65535) :
    PaymentRequest.from_bytes
        ([1, nid, 0] ++ (u32be pm ++ (A ++ (u16be tm ++ [nn])))) =
      some { pay_to := String.mk ('0' :: 'x' :: bytesHex A),
             price := pm, timeout := tm,
             network := network_of_id nid, nonce := nn } := by
  set L := [1, nid, 0] ++ (u32be pm ++ (A ++ (u16be tm ++ [nn]))) with hL
  have hlen : L.length = 30 := by simp [hL, u32be, u16be, hA]
  have htake : L.take 30 = L := List.take_of_length_le (by omega)
  have h3 : L.drop 3 = u32be pm ++ (A ++ (u16be tm ++ [nn])) := by simp [hL]
  have h7 : L.drop 7 = A ++ (u16be tm ++ [nn]) := by simp [hL, u32be]
  have h27 : L.drop 27 = u16be tm ++ [nn] := by
    have h1 : L.drop 27 = (L.drop 7).drop 20 := by rw [List.drop_drop]
    rw [h1, h7, List.drop_left' hA]
  have hg1 : L.getD 1 0 = nid := by simp [hL]
  have hg29 : L.getD 29 0 = nn := by
    have h1 : L.getD 29 0 = (A ++ (u16be tm ++ [nn])).getD 22 0 := by
      simp [hL, u32be]
    rw [h1, List.getD_append_right A _ 0 22 (by omega), hA]
    simp [u16be]
  unfold PaymentRequest.from_bytes
  rw [if_pos (by omega), htake, h3, h7, h27, hg1, hg29]
  rw [List.take_left' hA,
    List.take_left' (by simp [u32be] : (u32be pm).length = 4),
    List.take_left' (by simp [u16be] : (u16be tm).length = 2)]
  rw [beNat_u32be pm hpm, beNat_u16be tm htm]

/-- Unpacking the exact 108-byte response layout recovers each field. -/
theorem response_unpack (nid v va vb : Nat) (R S N : List Nat)
    (hR : R.length = 32) (hS : S.length = 32) (hN : N.length = 32)
    (hva : va ≤ 0xFFFFFFFF) (hvb : vb ≤ 0xFFFFFFFF) :
    PaymentResponse.from_bytes
        ([1, nid, 0, v] ++ (R ++ (S ++ (N ++ (u32be va ++ u32be vb))))) =
      some { v := v, r := R, s := S, nonce := N,
             valid_after := va, valid_before := vb,
             network := network_of_id nid } := by
  set L := [1, nid, 0, v] ++ (R ++ (S ++ (N ++ (u32be va ++ u32be vb)))) with hL
  have hlen : L.length = 108 := by simp [hL, u32be, hR, hS, hN]
  have htake : L.take 108 = L := List.take_of_length_le (by omega)
  have h4 : L.drop 4 = R ++ (S ++ (N ++ (u32be va ++ u32be vb))) := by simp [hL]
  have h36 : L.drop 36 = S ++ (N ++ (u32be va ++ u32be vb)) := by
    have h1 : L.drop 36 = (L.drop 4).drop 32 := by rw [List.drop_drop]
    rw [h1, h4, List.drop_left' hR]
  have h68 : L.drop 68 = N ++ (u32be va ++ u32be vb) := by
    have h1 : L.drop 68 = (L.drop 36).drop 32 := by rw [List.drop_drop]
    rw [h1, h36, List.drop_left' hS]
  have h100 : L.drop 100 = u32be va ++ u32be vb := by
    have h1 : L.drop 100 = (L.drop 68).drop 32 := by rw [List.drop_drop]
    rw [h1, h68, List.drop_left' hN]
  have h104 : L.drop 104 = u32be vb := by
    have h1 : L.drop 104 = (L.drop 100).drop 4 := by rw [List.drop_drop]
    rw [h1, h100, List.drop_left' (by simp [u32be])]
  have hg1 : L.getD 1 0 = nid := by simp [hL]
  have hg3 : L.getD 3 0 = v := by simp [hL]
  unfold PaymentResponse.from_bytes
  rw [if_pos (by omega), htake, h4, h36, h68, h100, h104, hg1, hg3]
  rw [List.take_left' hR, List.take_left' hS, List.take_left' hN,
    List.take_left' (by simp [u32be] : (u32be va).length = 4),
    List.take_of_length_le (by simp [u32be])]
  rw [beNat_u32be va hva, beNat_u32be vb hvb]

/-! ## Codec claim theorems -/

set_option maxRecDepth 20000 in
/-- C2 fails as stated on its own S1 instance: the decoded `pay_to` is the
lower-case hex rendering, not the original mixed-case checksummed string
(every other field round-trips). -/
theorem request_payto_case_counterexample :
    s1req.to_bytes.bind PaymentRequest.from_bytes = some
      { pay_to := "0x5b12ea8dc4f37f4998d5a1bcf63ac9d6fd89bd4e",
        price := 1000, timeout := 60, network := "base-sepolia", nonce := 1 } ∧
    ("0x5b12ea8dc4f37f4998d5a1bcf63ac9d6fd89bd4e" : String) ≠ s1req.pay_to := by
  constructor <;> decide

/-- C2 (amended): for a request with valid fields — a parseable 20-byte hex
address, a network in the ID table and a one-byte nonce — encoding yields
exactly 30 bytes and decoding returns every field verbatim except price and
timeout, which saturate to their field maxima, and `pay_to`, which comes
back as the lower-case hex rendering of the same 20 address bytes. -/
theorem request_roundtrip_amended (r : PaymentRequest) (bs : List Nat)
    (hhex : fromhex (strip0x r.pay_to.data) = some bs)
    (hb : bs.length = 20)
    (hnet : r.network = "base-sepolia" ∨ r.network = "base" ∨
      r.network = "ethereum" ∨ r.network = "ethereum-sepolia")
    (hnonce : r.nonce < 256) :
    ∃ enc, r.to_bytes = some enc ∧ enc.length = 30 ∧
      PaymentRequest.from_bytes enc = some
        { pay_to := String.mk ('0' :: 'x' :: bytesHex bs),
          price := min r.price 0xFFFFFFFF,
          timeout := min r.timeout 65535,
          network := r.network,
          nonce := r.nonce } := by
  have hpad : padTrunc 20 bs = bs := by
    simp [padTrunc, hb, List.take_of_length_le]
  refine ⟨[1, network_id_of r.network, 0] ++ (u32be (min r.price 0xFFFFFFFF) ++
    (padTrunc 20 bs ++ (u16be (min r.timeout 65535) ++ [r.nonce % 256]))),
    ?_, ?_, ?_⟩
  · unfold PaymentRequest.to_bytes
    rw [hhex]
  · simp [u32be, u16be, padTrunc_length]
  · rw [hpad,
      request_unpack _ _ _ _ _ hb (Nat.min_le_right _ _) (Nat.min_le_right _ _)]
    have hnn : r.nonce % 256 = r.nonce := Nat.mod_eq_of_lt hnonce
    have hrt : network_of_id (network_id_of r.network) = r.network := by
      rcases hnet with h | h | h | h <;> rw [h] <;> rfl
    rw [hnn, hrt]

set_option maxRecDepth 20000 in
/-- Witness for the amended C2 at the S1 instance. -/
theorem request_roundtrip_amended_witness :
    ∃ enc, s1req.to_bytes = some enc ∧ enc.length = 30 ∧
      PaymentRequest.from_bytes enc = some
        { pay_to := String.mk ('0' :: 'x' :: bytesHex s1addrBytes),
          price := min s1req.price 0xFFFFFFFF,
          timeout := min s1req.timeout 65535,
          network := s1req.network,
          nonce := s1req.nonce } :=
  request_roundtrip_amended s1req s1addrBytes (by decide) (by decide)
    (Or.inl rfl) (by decide)

/-- C3: a response with valid fields — one-byte `v`, 32-byte `r`, `s` and
`nonce`, 32-bit timestamps and a network in the ID table — encodes to
exactly 108 bytes and decodes back verbatim on every field. -/
theorem response_roundtrip (p : PaymentResponse)
    (hv : p.v ≤ 255) (hr : p.r.length = 32) (hs : p.s.length = 32)
    (hn : p.nonce.length = 32)
    (hva : p.valid_after ≤ 0xFFFFFFFF) (hvb : p.valid_before ≤ 0xFFFFFFFF)
    (hnet : p.network = "base-sepolia" ∨ p.network = "base" ∨
      p.network = "ethereum" ∨ p.network = "ethereum-sepolia") :
    ∃ enc, p.to_bytes = some enc ∧ enc.length = 108 ∧
      PaymentResponse.from_bytes enc = some p := by
  have hpr : padTrunc 32 p.r = p.r := by
    simp [padTrunc, hr, List.take_of_length_le]
  have hps : padTrunc 32 p.s = p.s := by
    simp [padTrunc, hs, List.take_of_length_le]
  have hpn : padTrunc 32 p.nonce = p.nonce := by
    simp [padTrunc, hn, List.take_of_length_le]
  refine ⟨[1, network_id_of p.network, 0, p.v] ++ (padTrunc 32 p.r ++
    (padTrunc 32 p.s ++ (padTrunc 32 p.nonce ++ (u32be p.valid_after ++
      u32be p.valid_before)))), ?_, ?_, ?_⟩
  · unfold PaymentResponse.to_bytes
    rw [if_pos ⟨hv, hva, hvb⟩]
  · simp [u32be, padTrunc_length]
  · rw [hpr, hps, hpn,
      response_unpack _ _ _ _ _ _ _ hr hs hn hva hvb]
    have hrt : network_of_id (network_id_of p.network) = p.network := by
      rcases hnet with h | h | h | h <;> rw [h] <;> rfl
    rw [hrt]

/-- Witness for C3 at the S2 instance. -/
theorem response_roundtrip_witness :
    ∃ enc, s2resp.to_bytes = some enc ∧ enc.length = 108 ∧
      PaymentResponse.from_bytes enc = some s2resp :=
  response_roundtrip s2resp (by decide) (by decide) (by decide) (by decide)
    (by decide) (by decide) (Or.inl rfl)

/-- C8: compact request decode fails exactly on inputs shorter than 30
bytes; otherwise it succeeds reading only the first 30 bytes (trailing
bytes are ignored), an unknown network ID decodes to the default
`"base-sepolia"` and a nonzero scheme ID decodes as `"unknown"`. -/
theorem compact_request_decode_total (data : List Nat) :
    ((CompactPaymentRequest.from_bytes data).isSome ↔ 30 ≤ data.length) ∧
    CompactPaymentRequest.from_bytes data =
      CompactPaymentRequest.from_bytes (data.take 30) ∧
    ∀ req, CompactPaymentRequest.from_bytes data = some req →
      ((data.getD 1 0 ≠ 0 ∧ data.getD 1 0 ≠ 1 ∧ data.getD 1 0 ≠ 2 ∧
          data.getD 1 0 ≠ 3) → req.network = "base-sepolia") ∧
      (data.getD 2 0 ≠ 0 → req.scheme = "unknown") := by
  refine ⟨?_, ?_, ?_⟩
  · by_cases h : 30 ≤ data.length <;>
      simp [CompactPaymentRequest.from_bytes, h]
  · by_cases h : 30 ≤ data.length
    · have h1 : 30 ≤ (data.take 30).length := by
        simp [List.length_take]
        omega
      simp [CompactPaymentRequest.from_bytes, h, h1, List.take_take]
    · rw [List.take_of_length_le (by omega)]
  · intro req hreq
    by_cases h : 30 ≤ data.length
    · have hget1 : (data.take 30).getD 1 0 = data.getD 1 0 :=
        getD_take_of_lt data 30 1 0 (by omega)
      have hget2 : (data.take 30).getD 2 0 = data.getD 2 0 :=
        getD_take_of_lt data 30 2 0 (by omega)
      unfold CompactPaymentRequest.from_bytes at hreq
      rw [if_pos h] at hreq
      simp only [Option.some.injEq] at hreq
      subst hreq
      constructor
      · rintro ⟨h0, h1, h2, h3⟩
        show network_of_id ((data.take 30).getD 1 0) = "base-sepolia"
        rw [hget1]
        unfold network_of_id
        rw [if_neg h0, if_neg h1, if_neg h2, if_neg h3]
      · intro hs2
        show (if (data.take 30).getD 2 0 = 0 then "exact" else "unknown") =
          "unknown"
        rw [hget2, if_neg hs2]
    · unfold CompactPaymentRequest.from_bytes at hreq
      rw [if_neg h] at hreq
      exact Option.noConfusion hreq

set_option maxRecDepth 20000 in
/-- Witness for C8 on 31 bytes of value 7: decode succeeds, the unknown
network ID 7 maps to the default network and the scheme ID 7 maps to the
sentinel. -/
theorem compact_request_decode_total_witness :
    (CompactPaymentRequest.from_bytes (List.replicate 31 7)).isSome ∧
    creq7.network = "base-sepolia" ∧ creq7.scheme = "unknown" := by
  have h := compact_request_decode_total (List.replicate 31 7)
  refine ⟨h.1.mpr (by decide), ?_, ?_⟩
  · exact (h.2.2 creq7 (by decide)).1 (by decide)
  · exact (h.2.2 creq7 (by decide)).2 (by decide)

/-- C9: the request nonce is reduced modulo 256 on encode rather than
saturated or rejected: whenever the address hex parses, `to_bytes` succeeds
and the decoded nonce is `nonce % 256`. -/
theorem request_nonce_mod (r : PaymentRequest) (bs : List Nat)
    (hhex : fromhex (strip0x r.pay_to.data) = some bs)
    (_hn : 256 ≤ r.nonce) :
    ∃ enc, r.to_bytes = some enc ∧
      (PaymentRequest.from_bytes enc).map PaymentRequest.nonce =
        some (r.nonce % 256) := by
  refine ⟨[1, network_id_of r.network, 0] ++ (u32be (min r.price 0xFFFFFFFF) ++
    (padTrunc 20 bs ++ (u16be (min r.timeout 65535) ++ [r.nonce % 256]))),
    ?_, ?_⟩
  · unfold PaymentRequest.to_bytes
    rw [hhex]
  · rw [request_unpack _ _ _ _ _ (padTrunc_length 20 bs)
      (Nat.min_le_right _ _) (Nat.min_le_right _ _)]
    rfl

set_option maxRecDepth 20000 in
/-- Witness for C9 at the S1 instance with nonce 300: the decoded nonce is
300 % 256 = 44. -/
theorem request_nonce_mod_witness :
    ∃ enc, s1reqBigNonce.to_bytes = some enc ∧
      (PaymentRequest.from_bytes enc).map PaymentRequest.nonce =
        some (s1reqBigNonce.nonce % 256) :=
  request_nonce_mod s1reqBigNonce s1addrBytes (by decide) (by decide)

end X402
